import Mathlib

/-!
Verification of the bananabacon log replay engine and metrics builder.

The development shallowly embeds `internal/logs/logreplay.go` and
`internal/metrics/metricsbuilder.go`.

Modelling conventions:
* `time.Time` is modelled as `Int`, measured in nanoseconds since the Go zero
  time (year 1); the Go zero value `time.Time{}` is `0` and `IsZero` is `= 0`.
  `time.Duration` values are 64-bit: `time.Time.Sub` (and `time.Since`)
  saturates at `maxDuration`/`minDuration` (about ±292 years), modelled by
  `goSub`, and arithmetic on `Duration` values wraps in two's complement,
  modelled by `wrap64`.  Direct `time.Time` comparisons (`Before`) involve no
  `Duration` and keep the exact `Int` order.
* The compiled filter regex, the compiled time regex (with its single capture
  group) and the `time.Parse`/`Format` pair for the configured `TimeFormat`
  are abstracted as functions in `ReplayConfig`: `timeMatch` returns the
  capture-group bounds `(b, e)` of group 1 (Go's `matches[2]`, `matches[3]`)
  when the regex matches, `parseTime` parses a captured substring, and
  `format` renders a time back into text.  Concrete instances are provided
  for witnesses and counterexamples.
* The real clock is modelled denotationally: the state carries the current
  wall time `now`; a fired timer of duration `d` advances `now` by `d`;
  scanning and callback execution are instantaneous.  This is the idealised
  timing the specification's "approximately" refers to.
* Cancellation (`context.Context`) is modelled by an optional wall time
  `copt` at which the context becomes done.  In `wait`, a cancelled context
  stops a timer that has not yet expired (the batch is discarded); a timer
  created with duration zero has already expired when `Stop` runs, so its
  `AfterFunc` body executes and the lines are emitted.  This mirrors Go's
  `time.AfterFunc`/`Timer.Stop` semantics for an already-due timer.
-/

set_option maxRecDepth 8000

namespace Bananabacon

/-- The compiled form of `ReplayerOptions`: the filter regex, the time regex
(capture bounds of group 1), the `TimeFormat` parser and formatter, and the
`Loop` flag. -/
structure ReplayConfig where
  filter : String → Bool
  timeMatch : String → Option (Nat × Nat)
  parseTime : String → Option Int
  format : Int → String
  loop : Bool

/-- The mutable state of one `processFile` pass, plus the denotational wall
clock `now` and the emission trace `out` (pairs of wall time and line text,
one entry per callback invocation, in invocation order).
`lst` is the log start time, `ctime` the time of the first line of the
current batch, `buffer` the buffered lines, `rst` the real start time of the
pass; the Go zero `time.Time` is the integer `0`. -/
structure ReplayState where
  lst : Int
  ctime : Int
  buffer : List String
  rst : Int
  now : Int
  out : List (Int × String)
deriving DecidableEq

/-- The batching proximity window of `processFile`:
`time.Duration(500) * time.Millisecond`, i.e. 500ms in nanoseconds. -/
def window : Int := 500000000

/-- The upper bound of Go's 64-bit `time.Duration` (`maxDuration`,
`2^63 - 1` ns, about 292 years). -/
def maxDuration : Int := 9223372036854775807

/-- The lower bound of Go's 64-bit `time.Duration` (`minDuration`,
`-2^63` ns). -/
def minDuration : Int := -9223372036854775808

/-- Embedding of `time.Time.Sub` (and of `time.Since`): the exact
difference, saturated at `maxDuration`/`minDuration` when it does not fit a
64-bit `Duration`. -/
def goSub (a b : Int) : Int :=
  if a - b > maxDuration then maxDuration
  else if a - b < minDuration then minDuration
  else a - b

/-- Two's-complement wrap-around of 64-bit `Duration` arithmetic: maps any
integer into `[-2^63, 2^63)` modulo `2^64`, as Go int64 subtraction does. -/
def wrap64 (x : Int) : Int :=
  (x + 9223372036854775808) % 18446744073709551616 - 9223372036854775808

/-- Embedding of `LogReplayer.extractAndReplaceTimestamp`.  Returns the
parsed timestamp, the rewritten line, and the success flag; on failure it
returns the Go zero time, the empty string and `false`, exactly as the
source does.  The mapped time is `mst.Add(ts.Sub(lst))`, whose `Sub`
saturates at the `Duration` bounds. -/
def extractAndReplaceTimestamp (cfg : ReplayConfig) (l : String) (mst lst : Int) :
    Int × String × Bool :=
  match cfg.timeMatch l with
  | none => (0, "", false)
  | some (b, e) =>
    match cfg.parseTime ((l.take e).drop b) with
    | none => (0, "", false)
    | some ts =>
      let nts := if lst = 0 then mst else mst + goSub ts lst
      (ts, l.take b ++ cfg.format nts ++ l.drop e, true)

/-- The timer duration computed by `handleBufferedLines`:
`diff := t.Sub(lst)` and `ndiff := time.Since(rst)` are saturated
`Duration`s, `dur := diff - ndiff` is 64-bit and wraps, and a negative
result is clamped to zero. -/
def schedDur (t lst now rst : Int) : Int :=
  let diff := goSub t lst
  let ndiff := goSub now rst
  let dur := wrap64 (diff - ndiff)
  if dur < 0 then 0 else dur

/-- Embedding of `handleBufferedLines` followed by `wait`: computes the
timer duration `diff - ndiff` clamped at zero, then either fires the timer
(emitting every buffered line through the callback at the firing instant and
advancing the clock) or, when the context is cancelled before the timer
expires, stops the timer and discards the batch.  A timer whose duration is
zero has already expired when `wait` calls `Stop`, so its lines are emitted
even under a cancelled context. -/
def flushWait (copt : Option Int) (s : ReplayState) (t lst : Int) : ReplayState :=
  let dur := schedDur t lst s.now s.rst
  match copt with
  | none =>
      { s with now := s.now + dur,
               out := s.out ++ s.buffer.map (fun l => (s.now + dur, l)) }
  | some c =>
      if c ≤ s.now then
        -- context already done when the wait starts
        if dur = 0 then
          { s with out := s.out ++ s.buffer.map (fun l => (s.now, l)) }
        else s
      else if s.now + dur ≤ c then
        -- timer fires before cancellation
        { s with now := s.now + dur,
                 out := s.out ++ s.buffer.map (fun l => (s.now + dur, l)) }
      else
        -- cancellation arrives mid-wait: timer stopped, batch discarded
        { s with now := c }

/-- Embedding of one iteration of the scanner loop in
`LogReplayer.processFile` (lines 99–140 of `logreplay.go`): filter check,
timestamp extraction and replacement (note that the Go code reassigns `line`
to the second return value, which is the empty string on failure), the
anchor-time fallback, the drop of lines before `lst`, establishment of
`ctime`/`lst`, and the proximity-window flush followed by the buffer and
`ctime` reset. -/
def processLine (cfg : ReplayConfig) (copt : Option Int) (mst : Int)
    (s : ReplayState) (line : String) : ReplayState :=
  if cfg.filter line = false then s else
  let r := extractAndReplaceTimestamp cfg line mst s.lst
  if r.2.2 = false ∧ s.ctime = 0 then s else
  let t := if r.2.2 then r.1 else s.ctime
  let line1 := r.2.1
  if s.lst ≠ 0 ∧ t < s.lst then s else
  let ctime1 := if s.ctime = 0 then t else s.ctime
  let lst1 := if s.lst = 0 then ctime1 else s.lst
  if goSub t ctime1 > window then
    let s1 := flushWait copt { s with ctime := ctime1, lst := lst1 } ctime1 lst1
    { s1 with buffer := [line1], ctime := 0 }
  else
    { s with ctime := ctime1, lst := lst1, buffer := s.buffer ++ [line1] }

/-- Embedding of one full `processFile` pass: scan every line, then flush
the final non-empty buffer.  `rstNow` is the wall time at which the pass
starts (`rst := time.Now()`). -/
def processFile (cfg : ReplayConfig) (copt : Option Int) (mst rstNow : Int)
    (lines : List String) : ReplayState :=
  let s0 : ReplayState := ⟨0, 0, [], rstNow, rstNow, []⟩
  let s1 := lines.foldl (processLine cfg copt mst) s0
  if s1.buffer.isEmpty then s1 else flushWait copt s1 s1.ctime s1.lst

/-- Embedding of the loop in `LogReplayer.Start` when `Loop` is enabled and
no cancellation occurs: runs `n` passes over the file.  After each pass the
mapped start time is advanced by `time.Since(start)` where `start` is the
wall time at which the session began, exactly as
`mst = mst.Add(time.Since(start))` does.  Returns the mapped start time and
wall time after the last pass and each pass's emission trace. -/
def startPasses (cfg : ReplayConfig) (mst w : Int) (lines : List String) :
    Nat → Int × Int × List (List (Int × String))
  | 0 => (mst, w, [])
  | n + 1 =>
    let r := startPasses cfg mst w lines n
    let s := processFile cfg none r.1 r.2.1 lines
    (r.1 + (s.now - w), s.now, r.2.2 ++ [s.out])

/-! ### A concrete configuration for witnesses and counterexamples

Timestamps are written as a leading run of decimal digits (the value in
nanoseconds), which stands in for the configured time regex's capture group;
formatting renders the integer back in decimal. -/

/-- Length of the leading digit run of a character list. -/
def digitsLen (l : List Char) : Nat := (l.takeWhile (fun c => c.isDigit)).length

/-- Decimal value of a digit list. -/
def digitsVal (l : List Char) : Int :=
  l.foldl (fun a c => a * 10 + (Int.ofNat (c.toNat - 48))) 0

/-- Sample time regex: the capture group is the leading digit run. -/
def sampleMatch (l : String) : Option (Nat × Nat) :=
  let k := digitsLen l.toList
  if k = 0 then none else some (0, k)

/-- Sample parser standing for `time.Parse`: a non-empty all-digit string parses to its decimal
value (nanoseconds). -/
def sampleParse (s : String) : Option Int :=
  if s.length ≠ 0 ∧ s.toList.all (fun c => c.isDigit) then some (digitsVal s.toList)
  else none

/-- Sample formatter standing for `Format`: decimal rendering. -/
def sampleFormat (n : Int) : String := toString n

/-- Concrete replay configuration: match-all filter, leading-digit
timestamps. -/
def cfgSample : ReplayConfig :=
  ⟨fun _ => true, sampleMatch, sampleParse, sampleFormat, false⟩

/-- Three lines stamped T0 = 1s, T0 + 1s, T0 + 3s (nanoseconds). -/
def linesC1 : List String := ["1000000000 a", "2000000000 b", "4000000000 c"]

/-- A line with a timestamp followed by one without. -/
def linesC4 : List String := ["1000000000 a", "xyz"]

/-- Two stamped lines 1s apart followed by a timestamp-less one, so the
timestamp-less line arrives just after a batch handoff. -/
def linesC5 : List String := ["1000000000 a", "2000000000 b", "xyz"]

/-- Four stamped lines at 1s, 3s, 4s, 10s; used for the cancellation run. -/
def linesC8 : List String := ["1000000000 a", "3000000000 b", "4000000000 c", "10000000000 d"]

/-- Two lines 400ms apart, inside one proximity window. -/
def linesC9 : List String := ["1000000000 a", "1400000000 b"]

/-- The initial state of a pass starting at wall time 5s with `mst` 5s. -/
def s0At5 : ReplayState := ⟨0, 0, [], 5000000000, 5000000000, []⟩

/-! ### Embedding of `internal/metrics/metricsbuilder.go`

Go strings are modelled as Lean `String`; all inputs of interest are ASCII,
so byte indices and character indices coincide.  A Go function that can
panic is modelled with an `Option` result whose `none` is the panic. -/

/-- Metric type constants from `metric.go` (`iota` block). -/
def UntypedType : Int := 0

def CounterType : Int := 1

def GaugeType : Int := 2

def HistogramType : Int := 3

def SummaryType : Int := 4

/-- The `MetricBuilder` struct.  The Go field `Type` is named `type_` here
because `Type` is reserved in Lean; `Labels` (a Go map) is an association
list. -/
structure MetricBuilder where
  name : String
  script : String
  type_ : Int
  labels : List (String × String)
  description : String
deriving DecidableEq

/-- Embedding of `NewMetricBuilder`: gauge type by default, empty label map. -/
def NewMetricBuilder (name : String) : MetricBuilder :=
  ⟨name, "", GaugeType, [], ""⟩

/-- Embedding of `strings.HasPrefix`, over the character lists. -/
def goHasPrefixStr (s p : String) : Bool := p.toList.isPrefixOf s.toList

/-- Embedding of `strings.HasSuffix`, over the character lists. -/
def goHasSuffixStr (s p : String) : Bool := p.toList.isSuffixOf s.toList

/-- Embedding of `strings.LastIndex(s, "_")`: the index of the last underscore, `-1` when
there is none.  `lastUnderscoreIdx` computes the index over the character
list. -/
def lastUnderscoreIdx : List Char → Option Nat
  | [] => none
  | c :: cs =>
    match lastUnderscoreIdx cs with
    | some k => some (k + 1)
    | none => if c = '_' then some 0 else none

/-- Embedding of `strings.LastIndex(varName, "_")` with Go's `-1` convention. -/
def goLastIndexUnderscore (s : String) : Int :=
  match lastUnderscoreIdx s.toList with
  | none => -1
  | some k => (k : Int)

/-- A Go string slice `s[a:b]` with an `Int` upper bound: panics (`none`)
unless `a ≤ b ≤ len(s)`. -/
def goSliceStr (s : String) (a : Nat) (b : Int) : Option String :=
  if (a : Int) ≤ b ∧ b ≤ (s.length : Int) then some ((s.take b.toNat).drop a)
  else none

/-- Embedding of `strings.SplitN(value, "=", 2)`: split at the first `=`. -/
def goSplitN2Eq (value : String) : List String :=
  match value.toList.findIdx? (· = '=') with
  | none => [value]
  | some i => [⟨value.toList.take i⟩, ⟨value.toList.drop (i + 1)⟩]

/-- The label-name check `isValidLabelName` (regex
`^[a-zA-Z_][a-zA-Z0-9_]*$`). -/
def isValidLabelName (s : String) : Bool :=
  match s.toList with
  | [] => false
  | c :: cs => (c.isAlpha || c = '_') && cs.all (fun d => d.isAlphanum || d = '_')

/-- Embedding of `MetricBuilder.WithType`: rejects a type outside
`[0, SummaryType]`, returning the error message as `some`. -/
def WithType (m : MetricBuilder) (t : Int) : MetricBuilder × Option String :=
  if t < 0 ∨ t > SummaryType then (m, some ("invalid metric type: " ++ toString t))
  else ({ m with type_ := t }, none)

/-- Embedding of `MetricBuilder.WithLabel`: validates the label name and stores the
pair. -/
def WithLabel (m : MetricBuilder) (labelName value : String) :
    MetricBuilder × Option String :=
  if isValidLabelName labelName = false then (m, some "invalid label name")
  else ({ m with labels := (m.labels.filter (fun p => p.1 ≠ labelName)) ++ [(labelName, value)] }, none)

/-- Embedding of `stringToMetricType`. -/
def stringToMetricType (s : String) : Int × Bool :=
  if s.toLower = "counter" then (CounterType, true)
  else if s.toLower = "gauge" then (GaugeType, true)
  else if s.toLower = "histogram" then (HistogramType, true)
  else if s.toLower = "summary" then (SummaryType, true)
  else (0, false)

/-- The `MetricsEngineBuilder` map, as an association list. -/
abbrev MetricsEngineBuilder := List (String × MetricBuilder)

/-- Go map lookup `mb[name]`. -/
def mebLookup (mb : MetricsEngineBuilder) (k : String) : Option MetricBuilder :=
  match mb with
  | [] => none
  | p :: rest => if p.1 = k then some p.2 else mebLookup rest k

/-- Go map store `mb[name] = b`. -/
def mebStore (mb : MetricsEngineBuilder) (k : String) (b : MetricBuilder) :
    MetricsEngineBuilder :=
  match mb with
  | [] => [(k, b)]
  | p :: rest => if p.1 = k then (k, b) :: rest else p :: mebStore rest k b

/-- The environment variable name constants of `metricsbuilder.go`
(`MetricEnvNamePrefix` and the four suffixes; the first is renamed here
because of the reserved word at its end). -/
def metricEnvNameLead : String := "METRIC_"

def MetricExprEnvNameSuffix : String := "_EXPR"

def MetricTypeEnvNameSuffix : String := "_TYPE"

def MetricDescrEnvNameSuffix : String := "_DESCR"

def MetricLabelEnvNameSuffix : String := "_LABEL"

/-- Embedding of `MetricsEngineBuilder.AddFromEnv`.  The result is `none`
when the Go code panics (the slice `varName[len(MetricEnvNamePrefix):
strings.LastIndex(varName, "_")]` with an out-of-range bound, or `parts[1]`
on a label value without `=`); otherwise it is the updated map together
with the returned error (if any), mirroring the `(mb, error)` return. -/
def AddFromEnv (mb : MetricsEngineBuilder) (varName value : String) :
    Option (MetricsEngineBuilder × Option String) :=
  if goHasPrefixStr varName metricEnvNameLead then
    match goSliceStr varName metricEnvNameLead.length (goLastIndexUnderscore varName) with
    | none => none
    | some name =>
      let builder := match mebLookup mb name with
        | some b => b
        | none => NewMetricBuilder name
      let mb1 := match mebLookup mb name with
        | some _ => mb
        | none => mebStore mb name builder
      if goHasSuffixStr varName MetricExprEnvNameSuffix then
        some (mebStore mb1 name { builder with script := value }, none)
      else if goHasSuffixStr varName MetricTypeEnvNameSuffix then
        let tr := stringToMetricType value
        if tr.2 = false then
          some (mb1, some ("Invalid metrics type for metric " ++ name))
        else
          let wr := WithType builder tr.1
          match wr.2 with
          | some e => some (mebStore mb1 name wr.1, some e)
          | none => some (mebStore mb1 name wr.1, none)
      else if goHasSuffixStr varName MetricDescrEnvNameSuffix then
        some (mebStore mb1 name { builder with description := value }, none)
      else if goHasSuffixStr varName MetricLabelEnvNameSuffix then
        let parts := goSplitN2Eq value
        match parts.get? 0, parts.get? 1 with
        | some p0, some p1 =>
          let wr := WithLabel builder p0 p1
          match wr.2 with
          | some e => some (mebStore mb1 name wr.1, some e)
          | none => some (mebStore mb1 name wr.1, none)
        | _, _ => none
      else
        some (mb1, none)
  else some (mb, none)

/-! ### Properties of the replay engine -/

/-- An output-trace invariant: every emission of the pass so far lies between
the pass's starting wall time `n0` and the current wall time. -/
def OutInv (n0 : Int) (s : ReplayState) : Prop :=
  n0 ≤ s.now ∧ ∀ e ∈ s.out, n0 ≤ e.1 ∧ e.1 ≤ s.now

theorem schedDur_nonneg (t lst now rst : Int) : 0 ≤ schedDur t lst now rst := by
  simp only [schedDur]
  split <;> omega

/-- Within the `Duration` range, `Time.Sub` is the exact difference. -/
theorem goSub_eq_of_range (a b : Int) (h1 : minDuration ≤ a - b)
    (h2 : a - b ≤ maxDuration) : goSub a b = a - b := by
  simp only [goSub]
  rw [if_neg (by omega), if_neg (by omega)]

/-- Within `[-2^63, 2^63)`, 64-bit wrap-around is the identity. -/
theorem wrap64_eq_of_range (x : Int) (h1 : minDuration ≤ x)
    (h2 : x ≤ maxDuration) : wrap64 x = x := by
  simp only [minDuration] at h1
  simp only [maxDuration] at h2
  have h0 : 0 ≤ x + 9223372036854775808 := by omega
  have hlt : x + 9223372036854775808 < 18446744073709551616 := by omega
  simp only [wrap64]
  rw [Int.emod_eq_of_lt h0 hlt]
  omega

/-- When the two `Sub`s and their difference all fit the `Duration` range,
the timer duration is the exact difference clamped at zero. -/
theorem schedDur_eq_max_of_range (t lst now rst : Int)
    (h1 : minDuration ≤ t - lst) (h2 : t - lst ≤ maxDuration)
    (h3 : minDuration ≤ now - rst) (h4 : now - rst ≤ maxDuration)
    (h5 : minDuration ≤ (t - lst) - (now - rst))
    (h6 : (t - lst) - (now - rst) ≤ maxDuration) :
    schedDur t lst now rst = max 0 ((t - lst) - (now - rst)) := by
  simp only [schedDur]
  rw [goSub_eq_of_range t lst h1 h2, goSub_eq_of_range now rst h3 h4,
      wrap64_eq_of_range _ h5 h6]
  split
  · exact (max_eq_left (by omega)).symm
  · exact (max_eq_right (by omega)).symm

/-- An uncancelled `flushWait` fires at `now + dur` and emits every buffered
line at that instant. -/
theorem flushWait_none_eq (s : ReplayState) (t lst : Int) :
    flushWait none s t lst =
      { s with now := s.now + schedDur t lst s.now s.rst,
               out := s.out ++
                 s.buffer.map (fun l => (s.now + schedDur t lst s.now s.rst, l)) } := rfl

theorem flushWait_none_outInv (n0 : Int) (s : ReplayState) (t lst : Int)
    (h : OutInv n0 s) : OutInv n0 (flushWait none s t lst) := by
  obtain ⟨h1, h2⟩ := h
  have hd := schedDur_nonneg t lst s.now s.rst
  rw [flushWait_none_eq]
  constructor
  · dsimp only
    omega
  · intro e he
    dsimp only at he ⊢
    simp only [List.mem_append, List.mem_map] at he
    rcases he with he | ⟨l, _, rfl⟩
    · exact ⟨(h2 e he).1, by have := (h2 e he).2; omega⟩
    · exact ⟨by omega, by omega⟩

/-- The invariant `OutInv` only reads the `now` and `out` fields. -/
theorem outInv_fields (n0 a b : Int) (c : List String) (d : Int) (s : ReplayState)
    (h : OutInv n0 s) : OutInv n0 ⟨a, b, c, d, s.now, s.out⟩ := ⟨h.1, h.2⟩

theorem processLine_outInv (cfg : ReplayConfig) (mst n0 : Int) (s : ReplayState)
    (line : String) (h : OutInv n0 s) :
    OutInv n0 (processLine cfg none mst s line) := by
  dsimp only [processLine]
  repeat' split
  all_goals
    first
      | exact h
      | exact outInv_fields n0 _ _ _ _ _ (flushWait_none_outInv n0 _ _ _ ⟨h.1, h.2⟩)

theorem foldl_outInv (cfg : ReplayConfig) (mst n0 : Int) :
    ∀ (lines : List String) (s : ReplayState), OutInv n0 s →
      OutInv n0 (lines.foldl (processLine cfg none mst) s)
  | [], _, h => h
  | l :: ls, s, h =>
    foldl_outInv cfg mst n0 ls (processLine cfg none mst s l)
      (processLine_outInv cfg mst n0 s l h)

/-- Every emission of an uncancelled pass starting at wall time `n0` occurs
between `n0` and the pass's final wall time. -/
theorem processFile_outInv (cfg : ReplayConfig) (mst n0 : Int) (lines : List String) :
    OutInv n0 (processFile cfg none mst n0 lines) := by
  dsimp only [processFile]
  have h0 : OutInv n0 (⟨0, 0, [], n0, n0, []⟩ : ReplayState) := ⟨le_refl _, by simp⟩
  have h1 := foldl_outInv cfg mst n0 lines _ h0
  split
  · exact h1
  · exact flushWait_none_outInv n0 _ _ _ h1

/-- When the time regex matches with capture bounds `(b, e)` and the capture
parses to `ts`, `extractAndReplaceTimestamp` returns `ts`, the line with the
capture replaced by the formatted mapped time, and `true`. -/
theorem extract_success_eq (cfg : ReplayConfig) (l : String) (mst lst ts : Int)
    (b e : Nat) (hm : cfg.timeMatch l = some (b, e))
    (hp : cfg.parseTime ((l.take e).drop b) = some ts) :
    extractAndReplaceTimestamp cfg l mst lst =
      (ts, l.take b ++ cfg.format (if lst = 0 then mst else mst + goSub ts lst) ++ l.drop e,
       true) := by
  simp only [extractAndReplaceTimestamp, hm, hp]

/-- C3 counterexample: a parsed timestamp `2^63 + 5` ns with anchor `1` lies
beyond the 64-bit `Duration` range, so `ts.Sub(lst)` saturates at
`maxDuration` and the embedded stamp is `mst + maxDuration`
(`9223372036854775807`), not the exact `mst + (ts - lst)` the claim
states. -/
theorem clock_mapping_saturates_cx :
    extractAndReplaceTimestamp cfgSample "9223372036854775813 a" 0 1 =
      (9223372036854775813, "9223372036854775807 a", true)
    ∧ cfgSample.format (0 + (9223372036854775813 - 1)) ++ " a" ≠
        "9223372036854775807 a" := by decide

/-- C3 amended: for every line whose timestamp is successfully extracted
and parsed after the log anchor `lst` is established (`lst ≠ 0`), and whose
span `ts - lst` fits the 64-bit `Duration` range, the rewritten line embeds
`mst + (ts - lst)` formatted with the configured descriptor, spliced in
place of the captured substring with the rest of the line unchanged (beyond
that range `Time.Sub` saturates, see the counterexample); the line that
establishes the anchor (`lst = 0`) is rewritten to exactly the mapped start
time `mst`. -/
theorem clock_mapping_rewrite (cfg : ReplayConfig) (l : String) (mst lst ts : Int)
    (b e : Nat) (hm : cfg.timeMatch l = some (b, e))
    (hp : cfg.parseTime ((l.take e).drop b) = some ts) :
    (lst ≠ 0 → minDuration ≤ ts - lst → ts - lst ≤ maxDuration →
      extractAndReplaceTimestamp cfg l mst lst =
        (ts, l.take b ++ cfg.format (mst + (ts - lst)) ++ l.drop e, true))
    ∧ (lst = 0 → extractAndReplaceTimestamp cfg l mst lst =
        (ts, l.take b ++ cfg.format mst ++ l.drop e, true)) := by
  have hr := extract_success_eq cfg l mst lst ts b e hm hp
  constructor
  · intro h h1 h2
    rw [hr, if_neg h, goSub_eq_of_range ts lst h1 h2]
  · intro h
    rw [hr, if_pos h]

/-- Witness for `clock_mapping_rewrite` at a concrete line and anchor. -/
theorem clock_mapping_rewrite_witness :
    ((500 : Int) ≠ 0 ∧ minDuration ≤ (1000000000 : Int) - 500
      ∧ (1000000000 : Int) - 500 ≤ maxDuration)
    ∧ extractAndReplaceTimestamp cfgSample "1000000000 a" 7 500 =
      (1000000000, ("1000000000 a").take 0 ++
        cfgSample.format (7 + (1000000000 - 500)) ++ ("1000000000 a").drop 10, true) :=
  ⟨⟨by decide, by decide, by decide⟩,
   (clock_mapping_rewrite cfgSample "1000000000 a" 7 500 1000000000 0 10
      (by decide) (by decide)).1 (by decide) (by decide) (by decide)⟩

/-- C5 (divergence): in `linesC5` the handoff triggered by line 2 leaves
the batch holding line 2 open (non-empty buffer) with its anchor `ctime`
reset to the zero time; the filter-matching, timestamp-less line "xyz" that
follows is then dropped entirely — the fallback tests `ctime.IsZero()`,
which in this reachable state does not mean the buffer is empty — although
the claim says a line failing extraction is appended to the open batch.
The buffer after all three lines still holds only line 2's rewrite, and the
full run never emits "xyz" in any form (and where the fallback does append,
it appends the empty string, the C4 clobber). -/
theorem unresolvable_dropped_despite_open_batch :
    ((linesC5.foldl (processLine cfgSample none 5000000000) s0At5).buffer =
        ["6000000000 b"]
      ∧ (linesC5.foldl (processLine cfgSample none 5000000000) s0At5).ctime = 0)
    ∧ (processFile cfgSample none 5000000000 5000000000 linesC5).out =
        [(5000000000, "5000000000 a"), (5000000000, "6000000000 b")] := by decide

/-- C6 counterexample: at the reachable anchorless end-of-file flush of a
modern-timestamped log (anchor = zero time, `logAnchor` a 2023-era stamp
`6.38e19` ns since year 1, 1s of elapsed real time), the mapped difference
is negative, yet the wait is not zero: `Time.Sub` saturates at
`minDuration` and the int64 `diff - ndiff` wraps to `2^63 - 10^9` ns, about
292 years, so the overdue batch does not fire immediately. -/
theorem schedule_wraps_positive_cx :
    ((0 : Int) - 63800000000000000000) - ((1000000000 : Int) - 0) < 0
    ∧ schedDur 0 63800000000000000000 1000000000 0 = 9223372035854775808
    ∧ (flushWait none ⟨63800000000000000000, 0, ["d"], 0, 1000000000, []⟩ 0
        63800000000000000000).now = 9223372036854775808 := by decide

/-- C6 amended: whenever `anchor - logAnchor`, the elapsed time
`now - rst`, and their difference all lie within the 64-bit `Duration`
range, an uncancelled flush waits exactly
`max 0 ((anchor - logAnchor) - (now - rst))`: the batch fires at
`now + max 0 (...)` with every buffered line emitted then, and a negative
in-range difference gives a wait of exactly zero (the batch fires
immediately at `now`).  Outside that range `Time.Sub` saturates and the
int64 subtraction wraps (see the counterexample). -/
theorem schedule_clamped_delay (s : ReplayState) (t lst : Int)
    (h1 : minDuration ≤ t - lst) (h2 : t - lst ≤ maxDuration)
    (h3 : minDuration ≤ s.now - s.rst) (h4 : s.now - s.rst ≤ maxDuration)
    (h5 : minDuration ≤ (t - lst) - (s.now - s.rst))
    (h6 : (t - lst) - (s.now - s.rst) ≤ maxDuration) :
    (flushWait none s t lst).now = s.now + max 0 ((t - lst) - (s.now - s.rst))
    ∧ (flushWait none s t lst).out =
        s.out ++ s.buffer.map (fun l => (s.now + max 0 ((t - lst) - (s.now - s.rst)), l))
    ∧ ((t - lst) - (s.now - s.rst) < 0 → (flushWait none s t lst).now = s.now) := by
  have hs := schedDur_eq_max_of_range t lst s.now s.rst h1 h2 h3 h4 h5 h6
  have he := flushWait_none_eq s t lst
  rw [hs] at he
  rw [he]
  refine ⟨rfl, rfl, fun h => ?_⟩
  dsimp only
  rw [max_eq_left (by omega), add_zero]

/-- Witness for `schedule_clamped_delay`: an in-range overdue batch fires
with zero wait. -/
theorem schedule_clamped_delay_witness :
    ((5 : Int) - 0) - ((10 : Int) - 0) < 0
    ∧ (flushWait none ⟨0, 0, ["x"], 0, 10, []⟩ 5 0).now = 10 :=
  ⟨by decide,
   (schedule_clamped_delay ⟨0, 0, ["x"], 0, 10, []⟩ 5 0 (by decide) (by decide)
      (by decide) (by decide) (by decide) (by decide)).2.2 (by decide)⟩

/-- C7: once the log start time is established (`lst ≠ 0`), a line whose
extracted timestamp is strictly before it leaves the state unchanged — it
is never added to any batch and never emitted. -/
theorem before_anchor_line_dropped (cfg : ReplayConfig) (copt : Option Int)
    (mst : Int) (s : ReplayState) (line : String) (ts : Int) (b e : Nat)
    (hm : cfg.timeMatch line = some (b, e))
    (hp : cfg.parseTime ((line.take e).drop b) = some ts)
    (hl : s.lst ≠ 0) (hlt : ts < s.lst) :
    processLine cfg copt mst s line = s := by
  have hr := extract_success_eq cfg line mst s.lst ts b e hm hp
  by_cases hf : cfg.filter line = false
  · simp [processLine, hf]
  · simp [processLine, hf, hr, hl, hlt]

/-- Witness for `before_anchor_line_dropped`. -/
theorem before_anchor_line_dropped_witness :
    processLine cfgSample none 0 ⟨2000000000, 0, [], 0, 0, []⟩ "1000000000 a" =
      ⟨2000000000, 0, [], 0, 0, []⟩ :=
  before_anchor_line_dropped cfgSample none 0 _ "1000000000 a" 1000000000 0 10
    (by decide) (by decide) (by decide) (by decide)

/-- C1 (divergence): three lines stamped 1s, 2s, 4s, replayed with both the
mapped start time and the wall clock at 5s.  The rewritten texts carry the
claimed mapped times W, W+1s, W+3s, but the second line is emitted at
W+3s together with the third, not at W+1s: the batch opened after the first
handoff keeps the zero anchor until the next line, so lines 2 and 3 end up
in one batch anchored at line 3's timestamp. -/
theorem scenario_three_lines_run :
    (processFile cfgSample none 5000000000 5000000000 linesC1).out =
      [(5000000000, "5000000000 a"), (8000000000, "6000000000 b"),
       (8000000000, "8000000000 c")] := by decide

/-- C2 (divergence): after the handoff triggered by the second line of
`linesC1`, the open batch already holds that line while its anchor `ctime`
is the zero time; once the third line arrives, the anchor becomes 4s — the
third line's log-timestamp — although the batch's first member is the
second line, stamped 2s. -/
theorem batch_anchor_not_first_member :
    (((linesC1.take 2).foldl (processLine cfgSample none 5000000000) s0At5).buffer =
        ["6000000000 b"]
      ∧ ((linesC1.take 2).foldl (processLine cfgSample none 5000000000) s0At5).ctime = 0)
    ∧ ((linesC1.foldl (processLine cfgSample none 5000000000) s0At5).buffer =
        ["6000000000 b", "8000000000 c"]
      ∧ (linesC1.foldl (processLine cfgSample none 5000000000) s0At5).ctime =
          4000000000) := by decide

/-- C4 (divergence): a filter-matching line without an extractable timestamp
("xyz"), arriving while a batch is open, reaches the callback as the empty
string: `processFile` reassigns the line to the failed extraction's second
return value. -/
theorem unresolvable_line_kept_empty :
    (processFile cfgSample none 5000000000 5000000000 linesC4).out =
      [(5000000000, "5000000000 a"), (5000000000, "")] := by decide

/-- C8 (divergence): with cancellation at wall time 1s during the 3s wait
for the batch holding lines 2 and 3 of `linesC8`, that batch is discarded —
but scanning continues, and the end-of-file flush (anchored at the zero
time, hence an already-due timer with zero delay) still emits line 4
through the callback after cancellation. -/
theorem cancelled_wait_still_emits :
    (processFile cfgSample (some 1000000000) 0 0 linesC8).out =
      [(0, "0 a"), (1000000000, "9000000000 d")] := by decide

/-- C9 counterexample: for two lines 400ms apart (one batch), looping with
mapped start and wall clock at 0, it is false that every pass-2 callback
occurs strictly after every pass-1 callback — both passes emit at wall
time 0, and the rewritten timestamps of pass 2 repeat those of pass 1. -/
theorem loop_restart_not_strictly_after :
    ¬ (∀ e2 ∈ (startPasses cfgSample 0 0 linesC9 2).2.2.getD 1 [],
        ∀ e1 ∈ (startPasses cfgSample 0 0 linesC9 2).2.2.getD 0 [],
        e1.1 < e2.1) := by decide

/-- C9 amended: after end-of-file the replay restarts from the first line
with the mapped start time rebased by the wall time elapsed since the
session began (`mst + (now - w)`), and every callback of the new pass
occurs at or after — not strictly after — every callback of the previous
pass. -/
theorem loop_restart_rebase_monotone (cfg : ReplayConfig) (mst w : Int)
    (lines : List String) :
    (startPasses cfg mst w lines 2).2.2 =
      [(processFile cfg none mst w lines).out,
       (processFile cfg none (mst + ((processFile cfg none mst w lines).now - w))
          (processFile cfg none mst w lines).now lines).out]
    ∧ ∀ e1 ∈ (processFile cfg none mst w lines).out,
        ∀ e2 ∈ (processFile cfg none (mst + ((processFile cfg none mst w lines).now - w))
            (processFile cfg none mst w lines).now lines).out,
        e1.1 ≤ e2.1 := by
  constructor
  · rfl
  · intro e1 h1 e2 h2
    have b1 := processFile_outInv cfg mst w lines
    have b2 := processFile_outInv cfg (mst + ((processFile cfg none mst w lines).now - w))
        (processFile cfg none mst w lines).now lines
    exact le_trans (b1.2 e1 h1).2 (b2.2 e2 h2).1

/-- Witness for `loop_restart_rebase_monotone` on the concrete looping
scenario. -/
theorem loop_restart_rebase_monotone_witness :
    ((0 : Int), "0 a") ∈ (processFile cfgSample none 0 0 linesC9).out
    ∧ ((0 : Int), "0 a") ∈ (processFile cfgSample none
        (0 + ((processFile cfgSample none 0 0 linesC9).now - 0))
        (processFile cfgSample none 0 0 linesC9).now linesC9).out
    ∧ (0 : Int) ≤ (0 : Int) :=
  ⟨by decide, by decide,
   (loop_restart_rebase_monotone cfgSample 0 0 linesC9).2 ((0 : Int), "0 a")
     (by decide) ((0 : Int), "0 a") (by decide)⟩

/-- If no character of `l` is an underscore, `lastUnderscoreIdx` finds
none. -/
theorem lastUnderscoreIdx_eq_none (l : List Char) (h : ∀ c ∈ l, c ≠ '_') :
    lastUnderscoreIdx l = none := by
  induction l with
  | nil => rfl
  | cons c cs ih =>
    have hcs := ih (fun d hd => h d (List.mem_cons_of_mem c hd))
    simp [lastUnderscoreIdx, hcs, h c (List.mem_cons_self c cs)]

/-- C10: for every environment variable whose name is `METRIC_` followed by
anything containing no further underscore, `AddFromEnv` panics (result
`none`) while deriving the metric name — the slice
`varName[7:strings.LastIndex(varName, "_")]` has upper bound 6 — instead of
returning an error or ignoring the variable. -/
theorem metric_env_no_second_underscore_panics (mb : MetricsEngineBuilder)
    (rest value : String) (h : rest.toList.all (fun c => c ≠ '_') = true) :
    AddFromEnv mb ("METRIC_" ++ rest) value = none := by
  have hchars : ("METRIC_" ++ rest).toList =
      'M' :: 'E' :: 'T' :: 'R' :: 'I' :: 'C' :: '_' :: rest.toList := by
    show ("METRIC_" ++ rest).data = _
    rw [String.data_append]
    rfl
  have hnone : lastUnderscoreIdx rest.toList = none :=
    lastUnderscoreIdx_eq_none rest.toList
      (fun c hc => by simpa using List.all_eq_true.mp h c hc)
  have hnone' : lastUnderscoreIdx rest.data = none := hnone
  have hlast : goLastIndexUnderscore ("METRIC_" ++ rest) = 6 := by
    unfold goLastIndexUnderscore
    rw [hchars]
    simp [lastUnderscoreIdx, hnone, hnone']
  have hpre : goHasPrefixStr ("METRIC_" ++ rest) metricEnvNameLead = true := by
    unfold goHasPrefixStr
    rw [List.isPrefixOf_iff_prefix, hchars]
    exact ⟨rest.toList, rfl⟩
  have hslice : goSliceStr ("METRIC_" ++ rest) metricEnvNameLead.length
      (goLastIndexUnderscore ("METRIC_" ++ rest)) = none := by
    rw [hlast]
    unfold goSliceStr
    rw [if_neg]
    rintro ⟨h1, _⟩
    exact absurd h1 (by decide)
  unfold AddFromEnv
  rw [hpre, if_pos rfl, hslice]

/-- Witness for `metric_env_no_second_underscore_panics` at the claim's
example `METRIC_X`. -/
theorem metric_env_no_second_underscore_panics_witness :
    ("X" : String).toList.all (fun c => c ≠ '_') = true
    ∧ AddFromEnv [] ("METRIC_" ++ "X") "5" = none :=
  ⟨by decide, metric_env_no_second_underscore_panics [] "X" "5" (by decide)⟩

end Bananabacon
